import Mathlib

/-!
Verification development for the function-serving module
`src/utils/serve-functions.js` of the netlify-dev-plugin repository.

The JavaScript source is shallowly embedded: each relevant source function is
translated into a Lean definition operating on explicit data (HTTP responses
are records of status, headers, written chunks and an end counter; the mutable
`module.paths` / `require.cache` globals become an explicit system state;
external collaborators such as the filesystem finders, `require`,
`require.resolve` and the JWT decoder are passed in as function parameters).
-/

/-! ## Base64 codec

Models the external platform codec used by the source: `body.toString("base64")`
for encoding a binary buffer (serve-functions.js line 142) and
`Buffer.from(s, "base64")` for decoding a response body (line 210).
Bytes are natural numbers below 256.
-/

/-- The 64-character base64 alphabet of the platform codec. -/
def b64Alphabet : List Char :=
  "ABCDEFGHIJKLMNOPQRSTUVWXYZabcdefghijklmnopqrstuvwxyz0123456789+/".toList

/-- Character encoding a sextet value (values ≥ 64 do not occur). -/
def b64Char (n : Nat) : Char := b64Alphabet.getD n 'A'

/-- Sextet value of a base64 character, if the character is in the alphabet. -/
def b64Index (c : Char) : Option Nat :=
  let i := b64Alphabet.indexOf c
  if i < 64 then some i else none

/-- Base64 encoding of a byte list: three bytes become four characters, a
trailing group of one or two bytes is padded with the pad character. -/
def encodeAux : List Nat → List Char
  | [] => []
  | [a] => [b64Char (a / 4), b64Char (a % 4 * 16), '=', '=']
  | [a, b] => [b64Char (a / 4), b64Char (a % 4 * 16 + b / 16), b64Char (b % 16 * 4), '=']
  | a :: b :: c :: rest =>
      b64Char (a / 4) :: b64Char (a % 4 * 16 + b / 16) ::
        b64Char (b % 16 * 4 + c / 64) :: b64Char (c % 64) :: encodeAux rest

/-- Base64 decoding of a character list, strict inverse of `encodeAux`:
four characters become three bytes, padding is accepted only in a final
group. -/
def decodeAux : List Char → Option (List Nat)
  | [] => some []
  | c0 :: c1 :: c2 :: c3 :: rest =>
      (b64Index c0).bind fun d0 =>
      (b64Index c1).bind fun d1 =>
      if c2 = '=' then
        if c3 = '=' ∧ rest = [] then some [d0 * 4 + d1 / 16] else none
      else
        (b64Index c2).bind fun d2 =>
        if c3 = '=' then
          if rest = [] then some [d0 * 4 + d1 / 16, d1 % 16 * 16 + d2 / 4] else none
        else
          (b64Index c3).bind fun d3 =>
          (decodeAux rest).map
            (fun bs =>
              (d0 * 4 + d1 / 16) :: (d1 % 16 * 16 + d2 / 4) :: (d2 % 4 * 64 + d3) :: bs)
  | _ => none

/-- The string produced by the platform encoder for a byte list. -/
def base64Encode (bs : List Nat) : String := String.mk (encodeAux bs)

/-- Strict base64 decoding of a string, inverse of `base64Encode`. -/
def base64Decode (s : String) : Option (List Nat) := decodeAux s.data

/-- Total decoder modelling `Buffer.from(s, "base64")`: it agrees with the
strict decoder on well-formed base64 text, which is the only case the claims
quantify over; the forgiving behaviour of the platform decoder on ill-formed
text is modelled as the empty byte list. -/
def base64DecodeTotal (s : String) : List Nat := (base64Decode s).getD []

theorem b64Index_b64Char_fin : ∀ n : Fin 64, b64Index (b64Char n.val) = some n.val := by decide

theorem b64Char_ne_pad_fin : ∀ n : Fin 64, b64Char n.val ≠ '=' := by decide

theorem b64Index_b64Char {n : Nat} (h : n < 64) : b64Index (b64Char n) = some n :=
  b64Index_b64Char_fin ⟨n, h⟩

theorem b64Char_ne_pad {n : Nat} (h : n < 64) : b64Char n ≠ '=' :=
  b64Char_ne_pad_fin ⟨n, h⟩

theorem decodeAux_encodeAux : ∀ bs : List Nat, (∀ b ∈ bs, b < 256) →
    decodeAux (encodeAux bs) = some bs := by
  intro bs
  induction bs using encodeAux.induct with
  | case1 =>
      intro _
      rfl
  | case2 a =>
      intro h
      have ha : a < 256 := h a (by simp)
      rw [encodeAux, decodeAux, b64Index_b64Char (by omega : a / 4 < 64),
        b64Index_b64Char (by omega : a % 4 * 16 < 64)]
      simp
      omega
  | case3 a b =>
      intro h
      have ha : a < 256 := h a (by simp)
      have hb : b < 256 := h b (by simp)
      rw [encodeAux, decodeAux, b64Index_b64Char (by omega : a / 4 < 64),
        b64Index_b64Char (by omega : a % 4 * 16 + b / 16 < 64),
        b64Index_b64Char (by omega : b % 16 * 4 < 64)]
      simp only [Option.some_bind]
      rw [if_neg (b64Char_ne_pad (by omega : b % 16 * 4 < 64))]
      simp
      omega
  | case4 a b c rest ih =>
      intro h
      have ha : a < 256 := h a (by simp)
      have hb : b < 256 := h b (by simp)
      have hc : c < 256 := h c (by simp)
      have hrest : decodeAux (encodeAux rest) = some rest :=
        ih (fun x hx => h x (by simp [hx]))
      rw [encodeAux, decodeAux, b64Index_b64Char (by omega : a / 4 < 64),
        b64Index_b64Char (by omega : a % 4 * 16 + b / 16 < 64),
        b64Index_b64Char (by omega : b % 16 * 4 + c / 64 < 64),
        b64Index_b64Char (by omega : c % 64 < 64)]
      simp only [Option.some_bind]
      rw [if_neg (b64Char_ne_pad (by omega : b % 16 * 4 + c / 64 < 64))]
      rw [if_neg (b64Char_ne_pad (by omega : c % 64 < 64))]
      rw [hrest]
      simp
      omega

theorem base64_roundtrip (bs : List Nat) (h : ∀ b ∈ bs, b < 256) :
    base64Decode (base64Encode bs) = some bs := by
  have hdata : (String.mk (encodeAux bs)).data = encodeAux bs := rfl
  rw [base64Decode, base64Encode, hdata]
  exact decodeAux_encodeAux bs h

/-! ## HTTP response model

An express `response` object is modelled by the effects the source applies to
it: the status code assignment, `setHeader` calls, `write` calls (recorded as
chunks) and `end` calls (counted, so that writing or closing twice is
observable).
-/

/-- A chunk written to the HTTP response. `errMsg m` models
`handleErr`'s write of the error-logo prefix followed by
"Function invocation failed: " and the error text `m`
(serve-functions.js lines 22-26); `bodyText` models writing a text body and
`bodyBytes` writing a decoded binary body (lines 208-212). -/
inductive Chunk where
  | errMsg (msg : String)
  | bodyText (s : String)
  | bodyBytes (bs : List Nat)
  deriving DecidableEq

/-- The observable state of an express HTTP response. -/
structure Response where
  statusCode : Int
  headers : List (String × String)
  chunks : List Chunk
  endCount : Nat
  deriving DecidableEq

/-- A fresh express response: default status 200, nothing written. -/
def initResponse : Response :=
  { statusCode := 200, headers := [], chunks := [], endCount := 0 }

/-- Embeds `handleErr(err, response)` (serve-functions.js lines 21-28):
set status 500, write the diagnostic, end the response. The console logging
is not modelled. -/
def handleErr (err : String) (r : Response) : Response :=
  { r with
    statusCode := 500
    chunks := r.chunks ++ [Chunk.errMsg err]
    endCount := r.endCount + 1 }

/-- Assignment into a string-keyed JavaScript-style association list:
replaces the value when the key is present, appends otherwise. Used for
`response.setHeader(key, value)` and for `functions[name] = entry`. -/
def assocSet {β : Type} (l : List (String × β)) (k : String) (v : β) : List (String × β) :=
  if l.any (fun p => p.1 = k) then
    l.map (fun p => if p.1 = k then (k, v) else p)
  else
    l ++ [(k, v)]

/-- Lookup in a string-keyed association list, modelling JavaScript property
access `obj[key]` (absent keys give `undefined`, i.e. `none`). -/
def assocGet {β : Type} (l : List (String × β)) (k : String) : Option β :=
  (l.find? (fun p => p.1 = k)).map Prod.snd

/-! ## Handler result validation and translation (response direction)

Embeds the closure returned by `createCallback(response)`
(serve-functions.js lines 176-215).
-/

/-- A handler invocation result as the source consumes it. `statusCode` is
`some n` when the result carries the JavaScript number `n` and `none` when the
field is missing (so that `Number(...)` gives `NaN`); `body` is `some s` when
the field is the string `s` and `none` when it is missing or not a string.
`headers` models the result's headers object (a JavaScript object, hence
unique keys). -/
structure LambdaResponse where
  statusCode : Option Int
  body : Option String
  headers : List (String × String)
  isBase64Encoded : Bool
  deriving DecidableEq

/-- Truthiness of `Number(x)` for the modelled `statusCode` field: a missing
or non-numeric field coerces to `NaN` (falsy), the number 0 is falsy, every
other number is truthy. -/
def numberTruthy : Option Int → Bool
  | some n => n != 0
  | none => false

/-- The body of the callback from `lambdaResponse === undefined` onward
(serve-functions.js lines 182-214): validate the result, then set the status
code, set every header, write the (possibly base64-decoded) body and end the
response. Here `none` models an undefined result only; a `null` result passes
the strict `=== undefined` test and then throws a TypeError reading
`.statusCode` of null before any of this logic runs, which the
callback-invocation embedding `applyCompletion` handles. -/
def lambdaCallbackValidate (lambdaResponse : Option LambdaResponse) (response : Response) :
    Response :=
  match lambdaResponse with
  | none =>
      handleErr "lambda response was undefined. check your function code again." response
  | some lr =>
      if numberTruthy lr.statusCode = false then
        handleErr "Incorrect function response statusCode" response
      else if lr.body.isNone then
        handleErr "Incorrect function response body" response
      else
        { response with
          statusCode := (lr.statusCode.getD 0)
          headers := lr.headers.foldl (fun hs kv => assocSet hs kv.1 kv.2) response.headers
          chunks := response.chunks ++
            [if lr.isBase64Encoded then
              Chunk.bodyBytes (base64DecodeTotal (lr.body.getD ""))
            else
              Chunk.bodyText (lr.body.getD "")]
          endCount := response.endCount + 1 }

/-- Embeds one firing of the completion callback built by
`createCallback(response)` (serve-functions.js lines 177-214), minus the
`callbackWasCalled` flag which the invocation engine threads explicitly.
`if (err)` tests JavaScript truthiness, so an empty-string error falls
through to the result validation. -/
def lambdaCallback (err : Option String) (lambdaResponse : Option LambdaResponse)
    (response : Response) : Response :=
  match err with
  | some e => if e = "" then lambdaCallbackValidate lambdaResponse response else handleErr e response
  | none => lambdaCallbackValidate lambdaResponse response

/-! ## Invocation engine

Embeds the completion plumbing of the request handler
(serve-functions.js lines 158-173) together with `promiseCallback`
(lines 219-233). A handler's observable completion behaviour is: the callback
invocations it performs synchronously during the call, the value it returns,
and the callback invocations it has scheduled to run after the call returns
(timers and the like). The engine replays them in program order: synchronous
calls, then the dual-completion guard, then the promise settlement delivered
through `promiseCallback`, then the scheduled asynchronous calls. The
theorems proved below do not depend on the relative order of the last two.
-/

/-- The result argument of a callback invocation, as JavaScript
distinguishes it: `undefined`, `null`, or an object result. The distinction
matters: `undefined` takes the diagnostic path of line 182, while `null`
passes the strict `=== undefined` test and then crashes the callback on the
`.statusCode` read of line 188. -/
inductive ResultArg where
  | undef
  | null
  | value (lr : LambdaResponse)
  deriving DecidableEq

/-- One invocation of the completion callback: `cbErr e` is
`callback(e, null)` (a handler error or a promise rejection with reason `e`),
`cbRes v` is `callback(null, v)`. -/
inductive Completion where
  | cbErr (e : String)
  | cbRes (v : ResultArg)
  deriving DecidableEq

/-- Settlement of a returned promise: it resolves with a value, rejects with
a reason, or never settles. -/
inductive PromiseOutcome where
  | resolves (v : ResultArg)
  | rejects (e : String)
  | pending
  deriving DecidableEq

/-- The value returned by `handler.handler(...)`: a falsy value, a truthy
value without a `then` function, or a thenable with the given settlement. -/
inductive RetValue where
  | undef
  | nonThenable
  | thenable (o : PromiseOutcome)
  deriving DecidableEq

/-- The completion behaviour of one handler invocation. -/
structure HandlerBehavior where
  syncCalls : List Completion
  ret : RetValue
  asyncCalls : List Completion
  deriving DecidableEq

/-- Result of running the dispatcher's invocation section: the final response
state, and whether the dual-completion guard threw its error. -/
structure InvokeResult where
  response : Response
  dualError : Bool
  deriving DecidableEq

/-- Applies one callback invocation to the response, as
`createCallback(response)` does. `callback(e, null)` with a falsy (empty)
error falls through `if (err)`, the `null` second argument passes the strict
`=== undefined` test, and the `.statusCode` read of line 188 throws a
TypeError: the callback unwinds with the response untouched — the only
response-relevant effect. `callback(null, null)` crashes the same way. -/
def applyCompletion (r : Response) : Completion → Response
  | .cbErr e => if e = "" then r else lambdaCallback (some e) none r
  | .cbRes .undef => lambdaCallback none none r
  | .cbRes .null => r
  | .cbRes (.value lr) => lambdaCallback none (some lr) r

/-- The callback invocations that `promiseCallback(promise, callback)`
(serve-functions.js lines 219-233) performs for a settlement: resolution
calls `callback(null, data)`, rejection calls `callback(err, null)`, a
never-settling promise calls nothing. -/
def promiseCompletions : PromiseOutcome → List Completion
  | .resolves v => [.cbRes v]
  | .rejects e => [.cbErr e]
  | .pending => []

/-- Whether a promise settles. -/
def settles : PromiseOutcome → Bool
  | .pending => false
  | _ => true

/-- Embeds serve-functions.js lines 158-173: run the handler (its synchronous
callback invocations fire first, setting `callbackWasCalled`); if the
callback was already called and the returned value is thenable, throw the
dual-use error (so `promiseCallback` is never attached); otherwise attach
`promiseCallback`, which relays the settlement to the callback. Callback
invocations the handler scheduled for later fire afterwards either way. -/
def invoke (b : HandlerBehavior) : InvokeResult :=
  let r1 := b.syncCalls.foldl applyCompletion initResponse
  let callbackWasCalled := !b.syncCalls.isEmpty
  match b.ret with
  | .thenable o =>
      if callbackWasCalled then
        { response := b.asyncCalls.foldl applyCompletion r1, dualError := true }
      else
        { response :=
            b.asyncCalls.foldl applyCompletion ((promiseCompletions o).foldl applyCompletion r1)
          dualError := false }
  | _ => { response := b.asyncCalls.foldl applyCompletion r1, dualError := false }

/-- The number of completion-callback firings an invocation produces: every
synchronous and scheduled asynchronous call fires, and the promise settlement
fires exactly when the guard let `promiseCallback` attach and the promise
settles. -/
def completionCount (b : HandlerBehavior) : Nat :=
  b.syncCalls.length + b.asyncCalls.length +
    match b.ret with
    | .thenable o => if b.syncCalls.isEmpty && settles o then 1 else 0
    | _ => 0

/-- How many times one callback invocation ends the response: once on every
path through the callback body, except the crashing ones — a null result with
a falsy error throws on the `.statusCode` read before any write. -/
def completionEnds : Completion → Nat
  | .cbErr e => if e = "" then 0 else 1
  | .cbRes .null => 0
  | .cbRes _ => 1

/-- Whether one callback invocation reaches the write path of the callback
body (false exactly for the crashing null-result / falsy-error cases). -/
def completionWrites : Completion → Bool
  | .cbErr e => e != ""
  | .cbRes .null => false
  | .cbRes _ => true

/-- Total number of response ends a list of callback invocations performs. -/
def writeCount : List Completion → Nat
  | [] => 0
  | c :: t => completionEnds c + writeCount t

/-- Total number of response ends one invocation performs: all synchronous
and scheduled asynchronous callback invocations, plus the settlement-driven
invocation when `promiseCallback` was attached and the promise settles. -/
def invokeWriteCount (b : HandlerBehavior) : Nat :=
  writeCount b.syncCalls + writeCount b.asyncCalls +
    match b.ret with
    | .thenable o =>
        if b.syncCalls.isEmpty && settles o then writeCount (promiseCompletions o) else 0
    | _ => 0

/-- Whether every completion the invocation fires reaches the callback's
write path (no null result and no falsy-error rejection anywhere). -/
def behaviorWrites (b : HandlerBehavior) : Bool :=
  b.syncCalls.all completionWrites && b.asyncCalls.all completionWrites &&
    match b.ret with
    | .thenable o => (promiseCompletions o).all completionWrites
    | _ => true

/-! ## Contract translation, request direction

Embeds the body translation of serve-functions.js lines 137-147.
-/

/-- The inbound request body as the body-parsing middleware leaves it: a
binary buffer, an already-parsed text body, or anything else (no body). -/
inductive RequestBody where
  | buffer (bs : List Nat)
  | str (s : String)
  | other
  deriving DecidableEq

/-- Embeds serve-functions.js lines 137-147: a `Buffer` body becomes its
base64 text with the flag set; a string body passes through; anything else
becomes the empty string. Returns (body, isBase64Encoded). -/
def translateBody : RequestBody → String × Bool
  | .buffer bs => (base64Encode bs, true)
  | .str s => (s, false)
  | .other => ("", false)

/-! ## Client context derivation

Embeds `buildClientContext(headers)` (serve-functions.js lines 37-55). The
external `jwt-decode` collaborator is a parameter returning `none` where the
library would throw.
-/

/-- The fixed emulated identity placeholders. -/
structure NetlifyIdentity where
  url : String
  token : String
  deriving DecidableEq

/-- The client context built for a well-formed bearer token; `α` is the type
of decoded claim payloads. -/
structure ClientContext (α : Type) where
  identity : NetlifyIdentity
  user : α

/-- Splits a character list at every occurrence of the separator, keeping
empty fragments, exactly as JavaScript `String.prototype.split` with a
single-character separator. -/
def splitOnChar (sep : Char) : List Char → List (List Char)
  | [] => [[]]
  | c :: rest =>
      let r := splitOnChar sep rest
      if c = sep then [] :: r
      else
        match r with
        | h :: t => (c :: h) :: t
        | [] => [[c]]

/-- Embeds `buildClientContext(headers)` (serve-functions.js lines 37-55):
no (or empty, hence falsy) authorization header gives no context; a header
that does not split into exactly "Bearer" and one token gives no context; a
token the decoder rejects gives no context (the source swallows the decode
error); otherwise the decoded claims are wrapped with the fixed emulated
identity placeholders. -/
def buildClientContext {α : Type} (decodeJwt : String → Option α)
    (headers : List (String × String)) : Option (ClientContext α) :=
  match assocGet headers "authorization" with
  | none => none
  | some auth =>
      if auth = "" then none
      else
        match splitOnChar ' ' auth.data with
        | [p0, p1] =>
            if p0 = "Bearer".data then
              match decodeJwt (String.mk p1) with
              | some u =>
                  some { identity :=
                          { url := "NETLIFY_LAMBDA_LOCALLY_EMULATED_IDENTITY_URL"
                            token := "NETLIFY_LAMBDA_LOCALLY_EMULATED_IDENTITY_TOKEN" }
                         user := u }
              | none => none
            else none
        | _ => none

/-! ## Handler registry scan

Embeds the directory scan of `createHandler(dir)`
(serve-functions.js lines 57-79). The filesystem collaborators
(`findHandler`, `findModuleDir`, `lstatSync(...).isDirectory()`) are
parameters.
-/

/-- A registry entry: the loadable source path and the dependency-resolution
root (`moduleDir`), which `findModuleDir` may fail to locate. -/
structure FuncEntry where
  functionPath : String
  moduleDir : Option String
  deriving DecidableEq

/-- The filesystem collaborators consumed by the scan. -/
structure ScanFS where
  findHandler : String → Option String
  findModuleDir : String → Option String
  isDirectory : String → Bool

/-- Models `path.resolve(path.join(dir, file))`; resolution against the
working directory is not modelled, only the joining. -/
def joinPath (dir file : String) : String := dir ++ "/" ++ file

/-- Whether a character list ends with the three characters ".js". -/
def endsWithJs : List Char → Bool
  | [] => false
  | ['.', 'j', 's'] => true
  | _ :: rest => endsWithJs rest

/-- Whether a character list ends with ".js" preceded by at least one more
character that is not a path separator — the shape on which `path.extname`
reports the extension ".js" (a final segment that is exactly ".js" is a
dotfile with empty extname). -/
def endsWithDotJsProper : List Char → Bool
  | [x, '.', 'j', 's'] => x != '/'
  | _ :: rest => endsWithDotJsProper rest
  | [] => false

/-- Models `path.extname(p) === ".js"`. -/
def hasJsExt (p : String) : Bool := endsWithDotJsProper p.data

/-- Models `file.replace(/\.js$/, "")`, which strips a ".js" suffix
wherever it occurs, dotfiles included. -/
def stripJsExt (file : String) : String :=
  if endsWithJs file.data then String.mk (file.data.take (file.data.length - 3)) else file

/-- Embeds the scan loop of `createHandler(dir)`
(serve-functions.js lines 58-79): for each directory entry, the loop first
tests `dir === "node_modules"` (the scanned root, not the entry), skips
entries for which `findHandler` finds no loadable entry point, registers a
single-file handler under the filename without its ".js" extension, and
registers a directory handler under the entry name with the located handler
path. Assignment into `functions` is last-wins. -/
def scanFunctions (fs : ScanFS) (dir : String) (files : List String) :
    List (String × FuncEntry) :=
  files.foldl
    (fun functions file =>
      if dir = "node_modules" then functions
      else
        let functionPath := joinPath dir file
        match fs.findHandler functionPath with
        | none => functions
        | some handlerPath =>
            if hasJsExt functionPath then
              assocSet functions (stripJsExt file)
                { functionPath := functionPath, moduleDir := fs.findModuleDir functionPath }
            else if fs.isDirectory functionPath then
              assocSet functions file
                { functionPath := handlerPath, moduleDir := fs.findModuleDir functionPath }
            else functions)
    []

/-! ## Module-resolution-root swaps

Embeds the two scoped swaps of the global `module.paths`: the handler-module
load (serve-functions.js lines 120-135) and the watcher's cache-eviction
callback `clearCache` (lines 83-93). `require`, which resolves against the
swapped paths, and `require.resolve`, which the platform documents as
throwing when the module cannot be resolved, are parameters.
-/

/-- A loaded handler module: whether its `handler` export is a function, and
its completion behaviour when invoked. -/
structure JsModule where
  hasHandlerFn : Bool
  behavior : HandlerBehavior
  deriving DecidableEq

/-- The mutable module-system globals the source touches: `module.paths`
(whose elements may be `undefined`, since `moduleDir` may be missing) and
`require.cache`. -/
structure SysState where
  modulePaths : List (Option String)
  requireCache : List (String × JsModule)
  deriving DecidableEq

/-- Embeds the load section of the request handler
(serve-functions.js lines 120-135): save `module.paths`, swap in
`[moduleDir]`, `require` the handler (the outcome may be an error), reject a
module whose `handler` export is not a function, and restore the saved paths
on both the success and the catch path. Returns the state after the load and
the loaded module or the error that `handleErr` will report. -/
def loadStep (sys : SysState) (moduleDir : Option String) (functionPath : String)
    (requireFn : List (Option String) → String → Except String JsModule) :
    SysState × Except String JsModule :=
  let before := sys.modulePaths
  let swapped : SysState := { sys with modulePaths := [moduleDir] }
  match requireFn swapped.modulePaths functionPath with
  | .error e => ({ swapped with modulePaths := before }, .error e)
  | .ok m =>
      if m.hasHandlerFn then ({ swapped with modulePaths := before }, .ok m)
      else
        ({ swapped with modulePaths := before },
          .error ("function " ++ functionPath ++ " must export a function named handler"))

/-- Embeds the watcher callback `clearCache(action)` built in
`createHandler` (serve-functions.js lines 83-93): save `module.paths`, swap
in `[fn.moduleDir]`, delete the cache entry under the key
`require.resolve(fn.functionPath)` and restore the saved paths. There is no
try/catch here: when `require.resolve` throws, the thrown error (returned as
`some e`) propagates before the restoring assignment runs, leaving the
swapped paths in place. -/
def clearCacheStep (sys : SysState) (fn : FuncEntry)
    (resolveFn : String → Except String String) : SysState × Option String :=
  let before := sys.modulePaths
  let swapped : SysState := { sys with modulePaths := [fn.moduleDir] }
  match resolveFn fn.functionPath with
  | .error e => (swapped, some e)
  | .ok key =>
      ({ swapped with
          requireCache := swapped.requireCache.filter (fun p => p.1 ≠ key)
          modulePaths := before },
        none)

/-! ## Dispatcher

Embeds the routing at the top of the request handler
(serve-functions.js lines 107-118).
-/

/-- The 17 characters that follow the slash and the wildcard position in the
strip pattern. -/
def functionsRouteMarker : List Char := "netlify/functions".data

/-- Embeds `request.path.replace(/^\/.netlify\/functions/, "")`. The dot in
the pattern is an unescaped regex metacharacter, so the stripped form is a
slash, then any single character, then the literal "netlify/functions". -/
def stripRouteNamespace (p : String) : String :=
  match p.data with
  | c0 :: _ :: rest =>
      if c0 = '/' ∧ rest.take 17 = functionsRouteMarker then String.mk (rest.drop 17) else p
  | _ => p

/-- Embeds `cleanPath.split("/").filter(e => e)[0]`: the first non-empty
slash-separated segment of the stripped path, if any. -/
def extractFuncName (p : String) : Option String :=
  (((splitOnChar '/' (stripRouteNamespace p).data).filter (fun s => s ≠ [])).head?).map
    String.mk

/-- The property names every plain JavaScript object literal inherits from
`Object.prototype`. Accessing `functions[k]` for such a `k` yields an
inherited function (or, for the last four and `__proto__`, an object) — a
truthy value — even though `k` is not an own key of the registry. -/
def objectProtoKeys : List String :=
  ["constructor", "hasOwnProperty", "isPrototypeOf", "propertyIsEnumerable",
   "toLocaleString", "toString", "valueOf", "__proto__", "__defineGetter__",
   "__defineSetter__", "__lookupGetter__", "__lookupSetter__"]

/-- The value JavaScript property access `functions[func]` yields on the
plain object `functions`: an own registry entry, a truthy member inherited
from `Object.prototype`, or `undefined` (falsy). -/
inductive PropLookup where
  | own (entry : FuncEntry)
  | inheritedMember
  | absent
  deriving DecidableEq

/-- Embeds the property access `functions[func]` of serve-functions.js
line 114, prototype chain included: an own key wins, otherwise an
`Object.prototype` name yields the inherited (truthy) member, otherwise
`undefined`. -/
def jsGetFunctions (functions : List (String × FuncEntry)) (k : String) : PropLookup :=
  match assocGet functions k with
  | some e => .own e
  | none => if k ∈ objectProtoKeys then .inheritedMember else .absent

/-- Outcome of the routing section: the short-circuit 404 path, a matched
registry entry, or a truthy inherited `Object.prototype` member (which also
skips the 404 branch). -/
inductive DispatchStep where
  | notFound
  | found (name : String) (entry : FuncEntry)
  | inheritedHit
  deriving DecidableEq

/-- Embeds serve-functions.js lines 107-118: extract the handler name and
test `!functions[func]`; a missing segment or an `undefined` access takes
the `response.statusCode = 404; response.end("Function not found...")`
path, while any truthy access — an own entry or an inherited
`Object.prototype` member — proceeds past the guard. -/
def dispatchRoute (functions : List (String × FuncEntry)) (path : String) : DispatchStep :=
  match extractFuncName path with
  | none => .notFound
  | some f =>
      match jsGetFunctions functions f with
      | .absent => .notFound
      | .inheritedMember => .inheritedHit
      | .own entry => .found f entry

theorem completionEnds_of_writes (c : Completion) (h : completionWrites c = true) :
    completionEnds c = 1 := by
  cases c with
  | cbErr e =>
      simp only [completionWrites, bne_iff_ne, ne_eq] at h
      simp [completionEnds, h]
  | cbRes v =>
      cases v with
      | undef => rfl
      | null => simp [completionWrites] at h
      | value lr => rfl

theorem applyCompletion_endCount (r : Response) (c : Completion) :
    (applyCompletion r c).endCount = r.endCount + completionEnds c := by
  cases c with
  | cbErr e =>
      by_cases he : e = ""
      · simp [applyCompletion, completionEnds, he]
      · simp [applyCompletion, lambdaCallback, completionEnds, he, handleErr]
  | cbRes v =>
      cases v with
      | undef =>
          show (lambdaCallback none none r).endCount = r.endCount + 1
          simp [lambdaCallback, lambdaCallbackValidate, handleErr]
      | null =>
          show r.endCount = r.endCount + 0
          simp
      | value lr =>
          show (lambdaCallback none (some lr) r).endCount = r.endCount + 1
          simp only [lambdaCallback, lambdaCallbackValidate]
          split
          · simp [handleErr]
          · split
            · simp [handleErr]
            · simp

theorem foldl_applyCompletion_endCount (l : List Completion) (r : Response) :
    (l.foldl applyCompletion r).endCount = r.endCount + writeCount l := by
  induction l generalizing r with
  | nil => simp [writeCount]
  | cons c t ih =>
      rw [List.foldl_cons, ih, applyCompletion_endCount, writeCount]
      omega

theorem invoke_endCount (b : HandlerBehavior) :
    (invoke b).response.endCount = invokeWriteCount b := by
  obtain ⟨sc, ret, ac⟩ := b
  cases ret with
  | undef =>
      simp [invoke, invokeWriteCount, foldl_applyCompletion_endCount, initResponse]
  | nonThenable =>
      simp [invoke, invokeWriteCount, foldl_applyCompletion_endCount, initResponse]
  | thenable o =>
      cases sc with
      | nil =>
          cases o <;>
            simp [invoke, invokeWriteCount, foldl_applyCompletion_endCount, promiseCompletions,
              settles, initResponse, applyCompletion_endCount, writeCount] <;>
            omega
      | cons c t =>
          simp [invoke, invokeWriteCount, foldl_applyCompletion_endCount, initResponse, settles,
            applyCompletion_endCount, writeCount]

theorem writeCount_of_all_writes (l : List Completion)
    (h : ∀ c ∈ l, completionWrites c = true) : writeCount l = l.length := by
  induction l with
  | nil => rfl
  | cons c t ih =>
      rw [writeCount, completionEnds_of_writes c (h c (by simp)),
        ih (fun x hx => h x (by simp [hx])), List.length_cons]
      omega

theorem invokeWriteCount_eq_completionCount (b : HandlerBehavior)
    (hw : behaviorWrites b = true) : invokeWriteCount b = completionCount b := by
  obtain ⟨sc, ret, ac⟩ := b
  unfold behaviorWrites at hw
  dsimp only at hw
  rw [Bool.and_eq_true, Bool.and_eq_true] at hw
  obtain ⟨⟨h1, h2⟩, h3⟩ := hw
  rw [List.all_eq_true] at h1 h2
  unfold invokeWriteCount completionCount
  dsimp only
  rw [writeCount_of_all_writes sc h1, writeCount_of_all_writes ac h2]
  cases ret with
  | undef => rfl
  | nonThenable => rfl
  | thenable o =>
      dsimp only at h3 ⊢
      rw [List.all_eq_true] at h3
      cases o with
      | resolves v =>
          have hv : writeCount (promiseCompletions (.resolves v)) = 1 := by
            rw [promiseCompletions, writeCount, writeCount,
              completionEnds_of_writes _ (h3 (.cbRes v) (by simp [promiseCompletions]))]
          rw [hv]
      | rejects e =>
          have hv : writeCount (promiseCompletions (.rejects e)) = 1 := by
            rw [promiseCompletions, writeCount, writeCount,
              completionEnds_of_writes _ (h3 (.cbErr e) (by simp [promiseCompletions]))]
          rw [hv]
      | pending => simp [settles]

/-! ## Claim C1 -/

/-- C1 (amended): the response is written and closed exactly once in every
invocation in which exactly one completion firing occurs — the handler calls
the callback exactly once in total, or never calls it and returns a deferred
result that settles — and that firing reaches the callback's write path (it
is not a null result or a falsy-error rejection, which throw a TypeError on
the `.statusCode` read of line 188 before writing anything). In particular a
handler that returns a deferred result and never calls the callback, the
deferred settling with an error, an undefined value or an object result,
completes exactly once via the deferred path. The original unconditional
exactly-once guarantee fails when the callback also fires asynchronously
alongside a settling deferred result (see the counterexample). -/
theorem invoke_single_completion_exactly_once (b : HandlerBehavior)
    (h : completionCount b = 1) (hw : behaviorWrites b = true) :
    (invoke b).response.endCount = 1 := by
  rw [invoke_endCount, invokeWriteCount_eq_completionCount b hw]
  exact h

theorem invoke_single_completion_exactly_once_witness :
    completionCount
        { syncCalls := [],
          ret := .thenable (.resolves (.value
            { statusCode := some 200, body := some "ok", headers := [], isBase64Encoded := false })),
          asyncCalls := [] } = 1 ∧
    behaviorWrites
        { syncCalls := [],
          ret := .thenable (.resolves (.value
            { statusCode := some 200, body := some "ok", headers := [], isBase64Encoded := false })),
          asyncCalls := [] } = true ∧
    (invoke
        { syncCalls := [],
          ret := .thenable (.resolves (.value
            { statusCode := some 200, body := some "ok", headers := [], isBase64Encoded := false })),
          asyncCalls := [] }).response.endCount = 1 :=
  ⟨by decide, by decide,
    invoke_single_completion_exactly_once _ (by decide) (by decide)⟩

/-- C1 counterexample: a handler that returns a deferred result which
resolves and that also calls the callback asynchronously (after the call
returned, so the dual-use guard saw nothing) gets its response written and
closed twice — the claimed unconditional exactly-once completion is false. -/
theorem invoke_deferred_plus_async_callback_double_write :
    (invoke
        { syncCalls := [],
          ret := .thenable (.resolves (.value
            { statusCode := some 200, body := some "v1", headers := [], isBase64Encoded := false })),
          asyncCalls := [.cbRes (.value
            { statusCode := some 200, body := some "v1", headers := [], isBase64Encoded := false })] }
      ).response.endCount = 2 := by decide

/-! ## Claim C4 -/

/-- C4 (amended): the dual-completion error is thrown exactly when the
completion callback was invoked synchronously (before the handler call
returned) and the returned value is a deferred (thenable) result. A callback
invocation that happens only asynchronously never triggers the guard, because
the source checks `callbackWasCalled` immediately after the handler call
returns. -/
theorem invoke_dualError_iff (b : HandlerBehavior) :
    (invoke b).dualError = true ↔ b.syncCalls ≠ [] ∧ ∃ o, b.ret = .thenable o := by
  obtain ⟨sc, ret, ac⟩ := b
  cases ret <;> cases sc <;> simp [invoke]

/-- C4 counterexample: the callback is invoked (asynchronously) and the
handler call returned a deferred result that settles — both completion paths
fire, writing the response twice — yet no dual-completion error is raised. -/
theorem invoke_async_callback_plus_deferred_no_dual_error :
    (invoke
        { syncCalls := [],
          ret := .thenable (.resolves (.value
            { statusCode := some 200, body := some "x", headers := [], isBase64Encoded := false })),
          asyncCalls := [.cbErr "boom"] }).dualError = false ∧
    (invoke
        { syncCalls := [],
          ret := .thenable (.resolves (.value
            { statusCode := some 200, body := some "x", headers := [], isBase64Encoded := false })),
          asyncCalls := [.cbErr "boom"] }).response.endCount = 2 := by decide

/-! ## Header copying lemmas -/

theorem mem_assocSet_self {β : Type} (l : List (String × β)) (k : String) (v : β) :
    (k, v) ∈ assocSet l k v := by
  unfold assocSet
  split
  · rename_i h
    rw [List.any_eq_true] at h
    obtain ⟨p, hp, hpk⟩ := h
    simp only [decide_eq_true_eq] at hpk
    exact List.mem_map.mpr ⟨p, hp, by simp [hpk]⟩
  · exact List.mem_append_right _ (by simp)

theorem mem_assocSet_of_ne {β : Type} {l : List (String × β)} {kv : String × β}
    (k : String) (v : β) (h : kv ∈ l) (hne : kv.1 ≠ k) : kv ∈ assocSet l k v := by
  unfold assocSet
  split
  · exact List.mem_map.mpr ⟨kv, h, by simp [if_neg hne]⟩
  · exact List.mem_append_left _ h

theorem mem_foldl_assocSet_preserve {β : Type} :
    ∀ (t : List (String × β)) (acc : List (String × β)) (kv : String × β),
      kv ∈ acc → (∀ q ∈ t, q.1 ≠ kv.1) →
      kv ∈ t.foldl (fun hs p => assocSet hs p.1 p.2) acc := by
  intro t
  induction t with
  | nil => intro acc kv h _; exact h
  | cons q r ih =>
      intro acc kv h hk
      rw [List.foldl_cons]
      exact ih _ kv
        (mem_assocSet_of_ne q.1 q.2 h (fun hq => hk q (by simp) hq.symm))
        (fun q' hq' => hk q' (by simp [hq']))

theorem mem_foldl_assocSet {β : Type} :
    ∀ (l : List (String × β)) (acc : List (String × β)),
      (l.map Prod.fst).Nodup → ∀ kv ∈ l, kv ∈ l.foldl (fun hs p => assocSet hs p.1 p.2) acc := by
  intro l
  induction l with
  | nil => simp
  | cons p t ih =>
      intro acc hnd kv hkv
      rw [List.foldl_cons]
      rw [List.map_cons, List.nodup_cons] at hnd
      rcases List.mem_cons.mp hkv with rfl | htail
      · refine mem_foldl_assocSet_preserve t _ kv (mem_assocSet_self acc kv.1 kv.2) ?_
        intro q hq hqe
        exact hnd.1 (hqe ▸ List.mem_map_of_mem Prod.fst hq)
      · exact ih _ hnd.2 kv htail

/-! ## Claim C2 -/

/-- C2 (amended): for every handler result whose statusCode is a number with
a truthy numeric coercion (that is, nonzero — the source's
`!Number(statusCode)` check also rejects the number 0) and whose body is a
string, the response carries exactly that status code, every header pair of
the result is set on the response, the response is ended once, and the body
is written verbatim, or base64-decoded first when isBase64Encoded is true. -/
theorem callback_valid_response (lr : LambdaResponse) (n : Int) (s : String)
    (hsc : lr.statusCode = some n) (hn : n ≠ 0) (hb : lr.body = some s)
    (hk : (lr.headers.map Prod.fst).Nodup) :
    (lambdaCallback none (some lr) initResponse).statusCode = n ∧
    (lambdaCallback none (some lr) initResponse).endCount = 1 ∧
    (∀ kv ∈ lr.headers, kv ∈ (lambdaCallback none (some lr) initResponse).headers) ∧
    (lr.isBase64Encoded = false →
      (lambdaCallback none (some lr) initResponse).chunks = [Chunk.bodyText s]) ∧
    (∀ bs, lr.isBase64Encoded = true → base64Decode s = some bs →
      (lambdaCallback none (some lr) initResponse).chunks = [Chunk.bodyBytes bs]) := by
  have key : lambdaCallback none (some lr) initResponse =
      { statusCode := n
        headers := lr.headers.foldl (fun hs kv => assocSet hs kv.1 kv.2) []
        chunks := [if lr.isBase64Encoded then
            Chunk.bodyBytes (base64DecodeTotal s)
          else
            Chunk.bodyText s]
        endCount := 1 } := by
    simp only [lambdaCallback, lambdaCallbackValidate, hsc, hb]
    simp [numberTruthy, hn, initResponse]
  rw [key]
  refine ⟨rfl, rfl, ?_, ?_, ?_⟩
  · intro kv hkv
    exact mem_foldl_assocSet lr.headers [] hk kv hkv
  · intro h64
    rw [h64]
    simp
  · intro bs h64 hdec
    rw [h64]
    simp [base64DecodeTotal, hdec]

theorem callback_valid_response_witness :
    (lambdaCallback none (some
        { statusCode := some 201, body := some "hi", headers := [("x-test", "1")],
          isBase64Encoded := false }) initResponse).statusCode = 201 :=
  (callback_valid_response _ 201 "hi" rfl (by decide) rfl (by decide)).1

/-- C2 counterexample: a result with statusCode 0 — a number — and a string
body is answered with a 500 status and the statusCode diagnostic instead of
status 0 with the body written verbatim, so the claim as stated fails. -/
theorem callback_statusCode_zero_not_copied :
    (lambdaCallback none (some
        { statusCode := some 0, body := some "ok", headers := [], isBase64Encoded := false })
      initResponse).statusCode = 500 ∧
    (lambdaCallback none (some
        { statusCode := some 0, body := some "ok", headers := [], isBase64Encoded := false })
      initResponse).chunks = [Chunk.errMsg "Incorrect function response statusCode"] := by
  decide

/-! ## Claim C3 -/

/-- C3: when the completion callback fires: a truthy error argument yields a
500 response carrying the error text; an undefined result yields a 500 with
the undefined-response diagnostic; a result whose statusCode does not coerce
to a truthy number yields a 500 with the statusCode diagnostic; a result
with a usable statusCode but a non-string body yields a 500 with the body
diagnostic. Every path ends the response exactly once and is a total
function of the inputs — no exception escapes to crash the process. -/
theorem callback_error_paths (e : String) (he : e ≠ "") (res : Option LambdaResponse)
    (lr1 lr2 : LambdaResponse) (h1 : numberTruthy lr1.statusCode = false)
    (h2 : numberTruthy lr2.statusCode = true) (h2b : lr2.body = none) :
    lambdaCallback (some e) res initResponse =
      { statusCode := 500, headers := [], chunks := [Chunk.errMsg e], endCount := 1 } ∧
    lambdaCallback none none initResponse =
      { statusCode := 500, headers := [],
        chunks := [Chunk.errMsg "lambda response was undefined. check your function code again."],
        endCount := 1 } ∧
    lambdaCallback none (some lr1) initResponse =
      { statusCode := 500, headers := [],
        chunks := [Chunk.errMsg "Incorrect function response statusCode"], endCount := 1 } ∧
    lambdaCallback none (some lr2) initResponse =
      { statusCode := 500, headers := [],
        chunks := [Chunk.errMsg "Incorrect function response body"], endCount := 1 } := by
  refine ⟨?_, ?_, ?_, ?_⟩
  · simp [lambdaCallback, handleErr, initResponse, he]
  · simp [lambdaCallback, lambdaCallbackValidate, handleErr, initResponse]
  · simp [lambdaCallback, lambdaCallbackValidate, handleErr, initResponse, h1]
  · simp [lambdaCallback, lambdaCallbackValidate, handleErr, initResponse, h2, h2b]

theorem callback_error_paths_witness :
    lambdaCallback (some "boom") none initResponse =
      { statusCode := 500, headers := [], chunks := [Chunk.errMsg "boom"], endCount := 1 } :=
  (callback_error_paths "boom" (by decide) none
    { statusCode := none, body := some "x", headers := [], isBase64Encoded := false }
    { statusCode := some 200, body := none, headers := [], isBase64Encoded := false }
    (by decide) (by decide) (by decide)).1

/-! ## Claim C5 -/

/-- C5: inbound body translation. A binary (Buffer) body yields
isBase64Encoded = true with the base64 encoding of the bytes, and decoding
that text reproduces the original bytes (round-trip); a string body passes
through unchanged with the flag false; no body yields the empty string with
the flag false. -/
theorem translateBody_spec (bs : List Nat) (h : ∀ b ∈ bs, b < 256) (s : String) :
    (translateBody (.buffer bs) = (base64Encode bs, true) ∧
      base64Decode (base64Encode bs) = some bs) ∧
    translateBody (.str s) = (s, false) ∧
    translateBody .other = ("", false) :=
  ⟨⟨rfl, base64_roundtrip bs h⟩, rfl, rfl⟩

theorem translateBody_spec_witness :
    base64Decode (base64Encode [0, 77, 255, 10]) = some [0, 77, 255, 10] :=
  ((translateBody_spec [0, 77, 255, 10] (by decide) "").1).2

/-! ## Claim C6 -/

/-- C6: client-context derivation. An absent (or empty, hence falsy)
authorization header, a header that does not split into exactly the two
space-separated parts "Bearer" and a token, or a token the decoder rejects,
all yield no client context — and the embedding is total, so no error
surfaces to the caller. A well-formed header with a decodable token yields
the decoded claims as user together with the fixed emulated identity
placeholder strings. -/
theorem buildClientContext_spec {α : Type} (decodeJwt : String → Option α)
    (headers : List (String × String)) :
    (assocGet headers "authorization" = none → buildClientContext decodeJwt headers = none) ∧
    (∀ auth, assocGet headers "authorization" = some auth →
      (∀ t, splitOnChar ' ' auth.data ≠ ["Bearer".data, t]) →
      buildClientContext decodeJwt headers = none) ∧
    (∀ auth t, assocGet headers "authorization" = some auth →
      splitOnChar ' ' auth.data = ["Bearer".data, t] →
      (decodeJwt (String.mk t) = none → buildClientContext decodeJwt headers = none) ∧
      (∀ u, decodeJwt (String.mk t) = some u →
        buildClientContext decodeJwt headers =
          some { identity := { url := "NETLIFY_LAMBDA_LOCALLY_EMULATED_IDENTITY_URL",
                               token := "NETLIFY_LAMBDA_LOCALLY_EMULATED_IDENTITY_TOKEN" },
                 user := u })) := by
  refine ⟨?_, ?_, ?_⟩
  · intro h
    simp [buildClientContext, h]
  · intro auth ha hsplit
    unfold buildClientContext
    rw [ha]
    dsimp only
    by_cases hA : auth = ""
    · rw [if_pos hA]
    · rw [if_neg hA]
      cases hs : splitOnChar ' ' auth.data with
      | nil => rfl
      | cons p0 t0 =>
          cases t0 with
          | nil => rfl
          | cons p1 t1 =>
              cases t1 with
              | nil =>
                  by_cases hB : p0 = "Bearer".data
                  · rw [hB] at hs
                    exact absurd hs (hsplit p1)
                  · exact if_neg hB
              | cons p2 t2 => rfl
  · intro auth t ha hsplit
    have hA : auth ≠ "" := by
      intro h
      rw [h] at hsplit
      have h0 : splitOnChar ' ' "".data = [[]] := by decide
      rw [h0] at hsplit
      injection hsplit with h1 h2
      exact absurd h2 (by simp)
    have key : buildClientContext decodeJwt headers =
        match decodeJwt (String.mk t) with
        | some u =>
            some { identity := { url := "NETLIFY_LAMBDA_LOCALLY_EMULATED_IDENTITY_URL",
                                 token := "NETLIFY_LAMBDA_LOCALLY_EMULATED_IDENTITY_TOKEN" },
                   user := u }
        | none => none := by
      unfold buildClientContext
      rw [ha]
      dsimp only
      rw [if_neg hA, hsplit]
      dsimp only
      rw [if_pos rfl]
    constructor
    · intro hd
      rw [key, hd]
    · intro u hd
      rw [key, hd]

theorem buildClientContext_spec_witness :
    buildClientContext (fun s => if s = "tok" then some 7 else none)
        [("authorization", "Bearer tok")] =
      some { identity := { url := "NETLIFY_LAMBDA_LOCALLY_EMULATED_IDENTITY_URL",
                           token := "NETLIFY_LAMBDA_LOCALLY_EMULATED_IDENTITY_TOKEN" },
             user := 7 } ∧
    buildClientContext (fun s => if s = "tok" then some 7 else none)
        [("authorization", "Basic tok")] = none :=
  ⟨((buildClientContext_spec (fun s => if s = "tok" then some 7 else none)
        [("authorization", "Bearer tok")]).2.2 "Bearer tok" "tok".data (by decide)
      (by decide)).2 7 (by decide),
    (buildClientContext_spec (fun s => if s = "tok" then some 7 else none)
        [("authorization", "Basic tok")]).2.1 "Basic tok" (by decide)
      (by
        intro t h
        have h0 : splitOnChar ' ' "Basic tok".data = ["Basic".data, "tok".data] := by decide
        rw [h0] at h
        injection h with h1 h2
        exact absurd h1 (by decide))⟩

/-! ## Claim C7 -/

/-- C7 (amended): `module.paths` is restored to its prior value after a
handler-module load, whether the load succeeds, the module lacks an
invocable handler export, or `require` itself fails (the try/catch restores
on every path); and it is restored after the watcher's cache-eviction
callback provided the `require.resolve` call inside the callback succeeds.
(When that call throws, the eviction callback has no try/catch and the swap
is not restored — see the counterexample.) -/
theorem modulePaths_restored (sys : SysState) (moduleDir : Option String)
    (functionPath : String)
    (requireFn : List (Option String) → String → Except String JsModule)
    (fn : FuncEntry) (resolveFn : String → Except String String) (key : String)
    (hres : resolveFn fn.functionPath = .ok key) :
    (loadStep sys moduleDir functionPath requireFn).1.modulePaths = sys.modulePaths ∧
    (clearCacheStep sys fn resolveFn).1.modulePaths = sys.modulePaths := by
  constructor
  · unfold loadStep
    dsimp only
    split
    · rfl
    · split <;> rfl
  · unfold clearCacheStep
    dsimp only
    rw [hres]

theorem modulePaths_restored_witness :
    (loadStep { modulePaths := [some "/prior"], requireCache := [] } (some "/m") "/fns/a.js"
        (fun _ _ => .ok { hasHandlerFn := true, behavior := ⟨[], .undef, []⟩ })).1.modulePaths =
      [some "/prior"] ∧
    (clearCacheStep { modulePaths := [some "/prior"], requireCache := [] }
        { functionPath := "/fns/a.js", moduleDir := some "/fns" }
        (fun _ => .ok "/fns/a.js")).1.modulePaths = [some "/prior"] :=
  modulePaths_restored { modulePaths := [some "/prior"], requireCache := [] } (some "/m")
    "/fns/a.js" (fun _ _ => .ok { hasHandlerFn := true, behavior := ⟨[], .undef, []⟩ })
    { functionPath := "/fns/a.js", moduleDir := some "/fns" }
    (fun _ => .ok "/fns/a.js") "/fns/a.js" rfl

/-- C7 counterexample: when `require.resolve` throws inside the watcher's
eviction callback — for instance on the unlink event, after the watched file
was deleted — the callback aborts before the restoring assignment, leaving
`module.paths` holding the swapped value `[fn.moduleDir]` instead of its
prior value, so the claim's clause about the cache-eviction callback fails. -/
theorem clearCache_failed_resolve_not_restored :
    (clearCacheStep { modulePaths := [some "/prior"], requireCache := [] }
        { functionPath := "/fns/a.js", moduleDir := some "/fns" }
        (fun _ => .error "Cannot find module")).1.modulePaths = [some "/fns"] ∧
    [some "/fns"] ≠ [(some "/prior" : Option String)] := by decide

/-! ## Claim C8 -/

/-- C9: the scan's skip guard tests the name of the scanned root directory
(`dir === "node_modules"`), not the name of the entry being visited. A child
entry literally named "node_modules" whose path the handler finder resolves
(here as a directory handler) is therefore registered in the returned
mapping, while scanning a root itself named "node_modules" yields an empty
registry — the per-entry skip stated by the claim does not hold. -/
theorem scan_child_node_modules_not_skipped :
    assocGet
        (scanFunctions
          { findHandler := fun p => some (p ++ "/index.js"),
            findModuleDir := fun _ => none,
            isDirectory := fun _ => true }
          "functions" ["node_modules"])
        "node_modules" =
      some { functionPath := "functions/node_modules/index.js", moduleDir := none } ∧
    scanFunctions
        { findHandler := fun p => some (p ++ "/index.js"),
          findModuleDir := fun _ => none,
          isDirectory := fun _ => true }
        "node_modules" ["sub"] = [] := by
  constructor
  · rfl
  · rfl

/-! ## Claim C10 -/

theorem stringMk_data (s : String) : String.mk s.data = s := rfl

theorem splitOnChar_no_sep (sep : Char) :
    ∀ cs : List Char, sep ∉ cs → splitOnChar sep cs = [cs] := by
  intro cs
  induction cs with
  | nil => intro _; rfl
  | cons c rest ih =>
      intro h
      have hc : ¬c = sep := fun he => h (by simp [he])
      have ht : sep ∉ rest := fun hm => h (List.mem_cons_of_mem _ hm)
      simp only [splitOnChar]
      rw [if_neg hc, ih ht]

theorem stripRoute_no_slash (cs : List Char) (hs : '/' ∉ cs) (hne : cs ≠ []) :
    stripRouteNamespace (String.mk ('/' :: cs)) = String.mk ('/' :: cs) := by
  cases cs with
  | nil => exact absurd rfl hne
  | cons c0 r0 =>
      have hcond : ¬('/' = '/' ∧ r0.take 17 = functionsRouteMarker) := by
        rintro ⟨-, h⟩
        have h7 : '/' ∈ functionsRouteMarker := by decide
        rw [← h] at h7
        exact hs (List.mem_cons_of_mem _ (List.take_subset _ _ h7))
      unfold stripRouteNamespace
      dsimp only
      rw [if_neg hcond]

theorem stripRoute_prefixed (c : Char) (tail : List Char) :
    stripRouteNamespace (String.mk ('/' :: c :: (functionsRouteMarker ++ tail))) =
      String.mk tail := by
  unfold stripRouteNamespace
  dsimp only
  rw [List.take_left' (by decide : functionsRouteMarker.length = 17)]
  rw [if_pos ⟨rfl, rfl⟩]
  rw [List.drop_left' (by decide : functionsRouteMarker.length = 17)]

theorem extract_of_stripped (p : String) (f : String) (hs : '/' ∉ f.data)
    (hne : f.data ≠ []) (hstrip : stripRouteNamespace p = String.mk ('/' :: f.data)) :
    extractFuncName p = some f := by
  unfold extractFuncName
  rw [hstrip]
  have hsplit : splitOnChar '/' (String.mk ('/' :: f.data)).data = [[], f.data] := by
    show splitOnChar '/' ('/' :: f.data) = [[], f.data]
    have hhead : splitOnChar '/' ('/' :: f.data) = [] :: splitOnChar '/' f.data := by
      simp [splitOnChar]
    rw [hhead, splitOnChar_no_sep '/' f.data hs]
  rw [hsplit]
  simp [hne, stringMk_data]

/-- C10: the unescaped dot in the strip pattern
`/^\/.netlify\/functions/` matches any single character, so for every
registered handler name f (nonempty, slash-free) and every character c, the
path "/", then c, then "netlify/functions/" followed by f routes to handler
f — exactly as the canonical "/.netlify/functions/" form (the instance
c = '.') and the bare "/" followed by f do. -/
theorem route_any_char_in_place_of_dot (c : Char) (f : String)
    (functions : List (String × FuncEntry)) (entry : FuncEntry)
    (hf : assocGet functions f = some entry) (hslash : '/' ∉ f.data)
    (hne : f.data ≠ []) :
    dispatchRoute functions (String.mk ('/' :: c :: ("netlify/functions/".data ++ f.data))) =
      DispatchStep.found f entry ∧
    dispatchRoute functions (String.mk ('/' :: f.data)) = DispatchStep.found f entry := by
  have hsfx : "netlify/functions/".data ++ f.data = functionsRouteMarker ++ ('/' :: f.data) := by
    have h0 : "netlify/functions/".data = functionsRouteMarker ++ ['/'] := by decide
    rw [h0, List.append_assoc]
    rfl
  have hj : jsGetFunctions functions f = PropLookup.own entry := by
    unfold jsGetFunctions
    rw [hf]
  constructor
  · have he : extractFuncName
        (String.mk ('/' :: c :: ("netlify/functions/".data ++ f.data))) = some f := by
      apply extract_of_stripped _ f hslash hne
      rw [hsfx]
      exact stripRoute_prefixed c ('/' :: f.data)
    unfold dispatchRoute
    rw [he]
    dsimp only
    rw [hj]
  · have he : extractFuncName (String.mk ('/' :: f.data)) = some f := by
      apply extract_of_stripped _ f hslash hne
      exact stripRoute_no_slash f.data hslash hne
    unfold dispatchRoute
    rw [he]
    dsimp only
    rw [hj]

theorem route_any_char_in_place_of_dot_witness :
    dispatchRoute [("hello", { functionPath := "/w/hello.js", moduleDir := none })]
        (String.mk ('/' :: 'x' :: ("netlify/functions/".data ++ "hello".data))) =
      DispatchStep.found "hello" { functionPath := "/w/hello.js", moduleDir := none } :=
  (route_any_char_in_place_of_dot 'x' "hello"
    [("hello", { functionPath := "/w/hello.js", moduleDir := none })]
    { functionPath := "/w/hello.js", moduleDir := none } rfl (by decide) (by decide)).1
